import Mathlib

/-!
A shallow embedding of the temp_utils object-storage utilities:
error_helper.py (the Result envelope and error taxonomy), minio_bc.py
(the transfer service) and move_minio.py (the bulk prefix migration).
Python strings are modelled as lists of characters.  Backend responses
(put, get, stat, copy, remove, presign, bucket probes) are supplied by
explicit oracle values, so every operation is a pure function of its
inputs and the oracle, and observable side effects (backend calls,
stream releases) are returned as explicit traces and counters.
-/

namespace TempUtils

/-- Python str is modelled as a list of characters. -/
abbrev Str := List Char

/-- ErrorCode enumeration from error_helper.py. -/
inductive ErrorCode
  | NOT_FOUND
  | UPLOAD_FAILED
  | STREAM_FAILED
  | DELETE_FAILED
  | PRESIGN_FAILED
  | BUCKET_ACCESS
  | UNKNOWN
  deriving DecidableEq

/-- Error model from error_helper.py: code, message, retryable (default false). -/
structure Error where
  code : ErrorCode
  message : Str
  retryable : Bool := false
  deriving DecidableEq

/-- Result envelope from error_helper.py.  The generic value slot is fixed to
Unit: the Err constructor, the only way the source builds a Result, never
fills the value. -/
structure Result where
  ok : Bool
  value : Option Unit := none
  error : Option Error := none
  deriving DecidableEq

/-- Err(code, msg) from error_helper.py. -/
def Err (code : ErrorCode) (msg : Str) : Result :=
  { ok := false, error := some { code := code, message := msg } }

/-! Key normalization (minio_bc.py and move_minio.py). -/

/-- Drop every leading occurrence of c: the leading half of Python
str.strip("/"). -/
def dropLeading (c : Char) : Str → Str
  | [] => []
  | a :: rest => if a = c then dropLeading c rest else a :: rest

/-- Drop every trailing occurrence of c: the trailing half of Python
str.strip("/"). -/
def dropTrailing (c : Char) : Str → Str
  | [] => []
  | a :: rest =>
    match dropTrailing c rest with
    | [] => if a = c then [] else [a]
    | r => a :: r

/-- Python s.strip("/") for a one-character strip set: remove every leading
and trailing occurrence. -/
def stripChar (c : Char) (s : Str) : Str :=
  dropTrailing c (dropLeading c s)

/-- MinIOService._build_object_name from minio_bc.py: strip "/" from the
directory; if the stripped directory is non-empty the key is
directory/filename, otherwise it is the filename alone. -/
def build_object_name (directory filename : Str) : Str :=
  let d := stripChar '/' directory
  if d = [] then filename else d ++ '/' :: filename

/-- normalize_prefix from move_minio.py: the empty string stays empty;
otherwise the string is returned unchanged when it already ends with "/",
and with "/" appended when it does not. -/
def normalize_prefix (p : Str) : Str :=
  if p = [] then []
  else if p.getLast? = some '/' then p else p ++ ['/']

/-- The string ends in exactly one separator: its last character is the
separator and the character before it is not. -/
def endsInOneSlash (s : Str) : Prop :=
  s.getLast? = some '/' ∧ s.dropLast.getLast? ≠ some '/'

instance (s : Str) : Decidable (endsInOneSlash s) := by
  unfold endsInOneSlash
  infer_instance

/-! Transfer service (minio_bc.py).  Each operation takes an oracle value
describing how the backing store answers its network calls. -/

/-- Exception kinds that escape to a caller in the modelled paths. -/
inductive ExnKind
  | unboundLocal
  deriving DecidableEq

/-- Oracle for the backend put_object call: success, an S3Error, or any
other exception (each carrying its rendered message). -/
inductive PutOutcome
  | ok
  | s3Error (m : Str)
  | otherError (m : Str)
  deriving DecidableEq

/-- Dynamic return of upload_stream: the object key string on success, a
Result produced by Err on a caught failure, or a raised exception. -/
inductive UploadReturn
  | key (k : Str)
  | res (r : Result)
  | exnRaised (e : ExnKind)
  deriving DecidableEq

/-- Observable side effects of one upload_stream call: the put_object calls
issued (bucket, key) and how many times data.close() ran. -/
structure UploadEffects where
  putCalls : List (Str × Str)
  dataClosed : Nat
  deriving DecidableEq

/-- Constant framing text of the upload UNKNOWN message. -/
def uploadUnknownText : Str := "Upload error for ".data

/-- MinIOService.upload_stream from minio_bc.py.  An empty filename raises
ValueError inside the try; the generic except handler then reads the
still-unbound local object_name, so an UnboundLocalError propagates to the
caller before any backend call; the finally block closes the input stream
on every path.  Otherwise the object name is built and put_object is
called: S3Error maps to Err(UPLOAD_FAILED, str(e)) and any other exception
to Err(UNKNOWN, framing ++ key ++ message). -/
def upload_stream (bucket : Str) (put : PutOutcome) (directory filename : Str) :
    UploadReturn × UploadEffects :=
  if filename = [] then
    (.exnRaised .unboundLocal, ⟨[], 1⟩)
  else
    let objectName := build_object_name directory filename
    match put with
    | .ok => (.key objectName, ⟨[(bucket, objectName)], 1⟩)
    | .s3Error m => (.res (Err .UPLOAD_FAILED m), ⟨[(bucket, objectName)], 1⟩)
    | .otherError m =>
        (.res (Err .UNKNOWN (uploadUnknownText ++ objectName ++ m)), ⟨[(bucket, objectName)], 1⟩)

/-- Oracle for the backend get_object call and subsequent reads: an opened
response delivering the given chunks (with an optional S3 failure raised by
the read after the last chunk), a missing key, another S3Error at open
time, or any other exception. -/
inductive GetOutcome
  | opened (chunks : List Str) (midFail : Option Str)
  | noSuchKey
  | s3Error (m : Str)
  | otherError (m : Str)
  deriving DecidableEq

/-- How the consumer drives the generator returned by stream_file: iterate
to exhaustion, or request at most n chunks and then drop the generator. -/
inductive ConsumerPlan
  | readAll
  | readAtMost (n : Nat)
  deriving DecidableEq

/-- How one interaction with the stream_file generator terminates for the
consumer.  doneWithValue records a Result smuggled out as the generator
return value, which iteration silently discards; raised records an
exception escaping from next(), together with any Result that had been
computed and was discarded by it. -/
inductive StreamTerm
  | done
  | doneWithValue (r : Result)
  | raised (e : ExnKind) (discarded : Option Result)
  | abandoned
  deriving DecidableEq

/-- Observable release effects of one stream_file interaction. -/
structure StreamEffects where
  closeCalls : Nat
  releaseConnCalls : Nat
  deriving DecidableEq

/-- Constant framing text of the stream NOT_FOUND message. -/
def notFoundText : Str := "Object not found: ".data

/-- Constant framing text of the stream STREAM_FAILED message. -/
def openFailText : Str := "Failed to open stream: ".data

/-- Shared tail of stream_file once the response is exhausted by the
consumer: with no pending failure the loop breaks and the generator ends;
with a pending S3 read failure the except branch returns
Err(STREAM_FAILED, ...) as the generator value.  Both paths run the inner
finally and then the outer finally, each doing close() and release_conn(),
so the response is released twice. -/
def streamEnd (chunks : List Str) (midFail : Option Str) :
    List Str × StreamTerm × StreamEffects :=
  match midFail with
  | none => (chunks, .done, ⟨2, 2⟩)
  | some m => (chunks, .doneWithValue (Err .STREAM_FAILED (openFailText ++ m)), ⟨2, 2⟩)

/-- MinIOService.stream_file from minio_bc.py, as one interaction between
the returned generator and a consumer.  A consumer that never calls next()
runs no body code at all.  On the first next(), open-time failures reach
the except branches, which build an Err value to return; but the outer
finally then reads the local response, which was never bound, so an
UnboundLocalError propagates and the Err is discarded.  On opened
responses the consumer either abandons early (GeneratorExit runs the inner
finally, skips the except branches, and runs the outer finally: two
releases) or drives to the end of the stream (streamEnd above, also two
releases). -/
def stream_file (bucket : Str) (get : GetOutcome) (plan : ConsumerPlan)
    (directory filename : Str) : List Str × StreamTerm × StreamEffects :=
  if plan = .readAtMost 0 then
    ([], .abandoned, ⟨0, 0⟩)
  else
    let objectName := build_object_name directory filename
    match get with
    | .noSuchKey =>
        ([], .raised .unboundLocal (some (Err .NOT_FOUND (notFoundText ++ objectName))), ⟨0, 0⟩)
    | .s3Error m =>
        ([], .raised .unboundLocal (some (Err .STREAM_FAILED (openFailText ++ m))), ⟨0, 0⟩)
    | .otherError m =>
        ([], .raised .unboundLocal (some (Err .UNKNOWN m)), ⟨0, 0⟩)
    | .opened chunks midFail =>
        match plan with
        | .readAll => streamEnd chunks midFail
        | .readAtMost n =>
            if n ≤ chunks.length then (chunks.take n, .abandoned, ⟨2, 2⟩)
            else streamEnd chunks midFail

/-- Oracle for the backend remove_object call. -/
inductive RemoveOutcome
  | ok
  | noSuchKey
  | s3Error (m : Str)
  | otherError (m : Str)
  deriving DecidableEq

/-- Dynamic return of delete_file: a raw boolean or a Result built by Err. -/
inductive DeleteReturn
  | boolRet (b : Bool)
  | res (r : Result)
  deriving DecidableEq

/-- True when the return value is a Result envelope rather than a raw
boolean. -/
def DeleteReturn.viaResult : DeleteReturn → Bool
  | .boolRet _ => false
  | .res _ => true

/-- MinIOService.delete_file from minio_bc.py: True on success, False when
the backend reports NoSuchKey, and Err(UNKNOWN, message) for every other
failure. -/
def delete_file (remove : RemoveOutcome) (directory filename : Str) : DeleteReturn :=
  match remove with
  | .ok => .boolRet true
  | .noSuchKey => .boolRet false
  | .s3Error m => .res (Err .UNKNOWN m)
  | .otherError m => .res (Err .UNKNOWN m)

/-- Oracle for the backend presigned_url call. -/
inductive PresignOutcome
  | ok (u : Str)
  | s3Error (m : Str)
  | otherError (m : Str)
  deriving DecidableEq

/-- Dynamic return of generate_presigned_url: the url string or a Result. -/
inductive PresignReturn
  | url (u : Str)
  | res (r : Result)
  deriving DecidableEq

/-- Constant framing text of the presign failure message. -/
def presignFailText : Str := "Failed to presign ".data

/-- MinIOService.generate_presigned_url from minio_bc.py. -/
def generate_presigned_url (pres : PresignOutcome) (directory filename : Str) :
    PresignReturn :=
  match pres with
  | .ok u => .url u
  | .s3Error m =>
      .res (Err .PRESIGN_FAILED (presignFailText ++ build_object_name directory filename ++ m))
  | .otherError m => .res (Err .UNKNOWN m)

/-- Oracle for bucket_exists / make_bucket in _ensure_bucket_exists. -/
inductive BucketProbe
  | okExists
  | okCreated
  | s3Error (m : Str)
  | otherError (m : Str)
  deriving DecidableEq

/-- MinIOService._ensure_bucket_exists from minio_bc.py: silently returns on
success, Err(BUCKET_ACCESS, str(e)) on S3Error and Err(UNKNOWN, e) on any
other exception. -/
def ensure_bucket_exists (probe : BucketProbe) : Option Result :=
  match probe with
  | .okExists => none
  | .okCreated => none
  | .s3Error m => some (Err .BUCKET_ACCESS m)
  | .otherError m => some (Err .UNKNOWN m)

/-- Every Error carried by an upload_stream return value. -/
def UploadReturn.errorsOf : UploadReturn → List Error
  | .res r => r.error.toList
  | _ => []

/-- Every Error carried by a stream_file termination, whether delivered as
the generator value or computed and then discarded by a raised
exception. -/
def StreamTerm.errorsOf : StreamTerm → List Error
  | .doneWithValue r => r.error.toList
  | .raised _ (some r) => r.error.toList
  | _ => []

/-- Every Error carried by a delete_file return value. -/
def DeleteReturn.errorsOf : DeleteReturn → List Error
  | .res r => r.error.toList
  | _ => []

/-- Every Error carried by a generate_presigned_url return value. -/
def PresignReturn.errorsOf : PresignReturn → List Error
  | .res r => r.error.toList
  | _ => []

/-- Every Error carried by an _ensure_bucket_exists return value. -/
def bucketErrorsOf : Option Result → List Error
  | some r => r.error.toList
  | none => []

/-! Migration orchestrator (move_minio.py). -/

/-- Oracle for the stat_object probe of the destination key: the object is
present, the probe fails with NoSuchKey or NotFound, or the probe fails in
any other way (an S3Error with another code is re-raised, and a non-S3
exception is not caught at all: both abort the run). -/
inductive StatOutcome
  | found
  | notFound
  | statFatal
  deriving DecidableEq

/-- Oracle for the server-side copy_object call of one key. -/
inductive CopyOutcome
  | ok
  | failed
  deriving DecidableEq

/-- Oracle for the remove_object call of one key. -/
inductive DelOutcome
  | ok
  | failed
  deriving DecidableEq

/-- One listed source object together with the backend's responses to the
calls the loop may issue for it. -/
structure ObjEnv where
  key : Str
  stat : StatOutcome
  copy : CopyOutcome
  del : DelOutcome
  deriving DecidableEq

/-- Backend calls issued by the migration loop, with their outcomes. -/
inductive Event
  | statCall (bucket key : Str) (outcome : StatOutcome)
  | copyCall (destBucket destKey srcBucket srcKey : Str) (ok : Bool)
  | removeCall (bucket key : Str) (ok : Bool)
  deriving DecidableEq

/-- Terminal classification of one listed object. -/
inductive ObjClass
  | Skipped
  | Moved
  | CopyFailed
  | DeleteFailed
  deriving DecidableEq

/-- Python key.startswith(sp). -/
def startsWithList (pre s : Str) : Bool :=
  decide (s.take pre.length = pre)

/-- The tail computation of the loop: strip the source prefix when it is
non-empty and the key starts with it, otherwise keep the key unchanged. -/
def tailOf (sp key : Str) : Str :=
  if sp ≠ [] ∧ startsWithList sp key then key.drop sp.length else key

/-- The copy-then-delete phase for one key: a failed copy is CopyFailed and
issues no remove call; after a successful copy the remove call is issued,
giving Moved on success and DeleteFailed on failure. -/
def copyDelete (sb db destKey : Str) (o : ObjEnv) : List Event × ObjClass :=
  match o.copy with
  | .failed => ([.copyCall db destKey sb o.key false], .CopyFailed)
  | .ok =>
    match o.del with
    | .ok => ([.copyCall db destKey sb o.key true, .removeCall sb o.key true], .Moved)
    | .failed => ([.copyCall db destKey sb o.key true, .removeCall sb o.key false], .DeleteFailed)

/-- One iteration of the migration loop body.  When overwrite is false the
destination is probed first: found means Skipped, a fatal probe failure
aborts the run (classification none), and NoSuchKey/NotFound falls through
to the copy phase.  When overwrite is true the probe is skipped. -/
def processObject (ow : Bool) (sb sp db dp : Str) (o : ObjEnv) :
    List Event × Option ObjClass :=
  let destKey := dp ++ tailOf sp o.key
  if ow then
    let r := copyDelete sb db destKey o
    (r.1, some r.2)
  else
    match o.stat with
    | .found => ([.statCall db destKey .found], some .Skipped)
    | .statFatal => ([.statCall db destKey .statFatal], none)
    | .notFound =>
      let r := copyDelete sb db destKey o
      (.statCall db destKey .notFound :: r.1, some r.2)

/-- Terminal classification of the copy phase alone. -/
def copyClass (o : ObjEnv) : ObjClass :=
  match o.copy with
  | .failed => .CopyFailed
  | .ok =>
    match o.del with
    | .ok => .Moved
    | .failed => .DeleteFailed

/-- Terminal classification of one listed object, none meaning the object
aborts the whole run. -/
def classify (ow : Bool) (o : ObjEnv) : Option ObjClass :=
  if ow then some (copyClass o)
  else
    match o.stat with
    | .found => some .Skipped
    | .statFatal => none
    | .notFound => some (copyClass o)

/-- The four run counters of move_minio_prefix. -/
structure Counters where
  moved : Nat
  copied : Nat
  skipped : Nat
  errors : Nat
  deriving DecidableEq

/-- The counter increments of one classified object, exactly as the loop
mutates the four counters: Skipped bumps skipped; a failed copy bumps
errors; a successful copy bumps copied, then the delete bumps moved on
success and errors on failure. -/
def bump (acc : Counters) : ObjClass → Counters
  | .Skipped => { acc with skipped := acc.skipped + 1 }
  | .CopyFailed => { acc with errors := acc.errors + 1 }
  | .Moved => { acc with copied := acc.copied + 1, moved := acc.moved + 1 }
  | .DeleteFailed => { acc with copied := acc.copied + 1, errors := acc.errors + 1 }

/-- The migration loop over the listed objects: each object is processed in
turn; a fatal classification aborts immediately with no counters, and
otherwise the counters are bumped and the loop continues. -/
def runLoop (ow : Bool) (sb sp db dp : Str) (acc : Counters) :
    List ObjEnv → List Event × Option Counters
  | [] => ([], some acc)
  | o :: rest =>
    match processObject ow sb sp db dp o with
    | (ev, none) => (ev, none)
    | (ev, some cl) =>
      let r := runLoop ow sb sp db dp (bump acc cl) rest
      (ev ++ r.1, r.2)

/-- move_minio_prefix from move_minio.py.  Both prefixes are normalized
first.  A missing source bucket raises RuntimeError before the loop: no
backend object calls, no counters.  Otherwise the loop runs from zero
counters; some counters are produced exactly when the loop completes. -/
def move_minio_prefix (srcBucketOk ow : Bool) (sb spRaw db dpRaw : Str)
    (objs : List ObjEnv) : List Event × Option Counters :=
  let sp := normalize_prefix spRaw
  let dp := normalize_prefix dpRaw
  if srcBucketOk then runLoop ow sb sp db dp ⟨0, 0, 0, 0⟩ objs
  else ([], none)

/-- Count of the objects whose terminal classification is cl. -/
def countCl (ow : Bool) (cl : ObjClass) (objs : List ObjEnv) : Nat :=
  objs.countP (fun o => decide ( classify ow o = some cl))

/-- Every remove call in the trace is preceded by a successful copy call
whose source is the same bucket and key. -/
def RemoveSafe (l : List Event) : Prop :=
  ∀ i b k okd, l.get? i = some (.removeCall b k okd) →
    ∃ j, j < i ∧ ∃ db2 dk, l.get? j = some (.copyCall db2 dk b k true)

/-! Helper lemmas for key normalization. -/

/-- Shape of a dropLeading result: empty, or starting with a character
different from the stripped one. -/
lemma dropLeading_shape (c : Char) (s : Str) :
    dropLeading c s = [] ∨ ∃ a rest, dropLeading c s = a :: rest ∧ a ≠ c := by
  induction s with
  | nil => exact Or.inl rfl
  | cons a rest ih =>
    by_cases h : a = c
    · simpa [dropLeading, h] using ih
    · exact Or.inr ⟨a, rest, by simp [dropLeading, h], h⟩

/-- Stripping trailing characters keeps the head of a list whose head is
not the stripped character. -/
lemma dropTrailing_head (c a : Char) (rest : Str) (h : a ≠ c) :
    ( dropTrailing c (a :: rest)).head? = some a := by
  simp only [dropTrailing]
  rcases hdt : dropTrailing c rest with _ | ⟨x, xs⟩
  · simp [h]
  · simp

/-- A stripped string is empty or does not start with the stripped
character. -/
lemma stripChar_head (c : Char) (s : Str) :
    stripChar c s = [] ∨ ( stripChar c s).head? ≠ some c := by
  rcases dropLeading_shape c s with h | ⟨a, rest, heq, hne⟩
  · exact Or.inl (by simp [stripChar, h, dropTrailing])
  · refine Or.inr ?_
    rw [stripChar, heq, dropTrailing_head c a rest hne]
    simp [hne]

/-! Claim C9: normalized prefixes. -/

/-- C9 counterexample: normalize_prefix("a//") is returned unchanged, so it
is non-empty yet does not end in exactly one separator — it ends in two.
This refutes the claim that every normalized prefix is either empty or ends
in exactly one separator. -/
theorem c9_norm_counterexample :
    normalize_prefix ['a', '/', '/'] = ['a', '/', '/']
    ∧ ¬ ( normalize_prefix ['a', '/', '/'] = [] ∨
          endsInOneSlash ( normalize_prefix ['a', '/', '/'])) := by
  decide

/-- C9 (amended): for every string p, normalize_prefix(p) is either empty or
ends in at least one separator (its last character is the separator — but
possibly more than one when the input already ended in several), and
normalize_prefix is idempotent for all inputs; the three specified examples
hold. -/
theorem c9_norm_amended (p : Str) :
    ( normalize_prefix p = [] ∨ ( normalize_prefix p).getLast? = some '/')
    ∧ normalize_prefix ( normalize_prefix p) = normalize_prefix p
    ∧ normalize_prefix ([] : Str) = []
    ∧ normalize_prefix ['a'] = ['a', '/']
    ∧ normalize_prefix ['a', '/'] = ['a', '/'] := by
  have base : normalize_prefix p = [] ∨ ( normalize_prefix p).getLast? = some '/' := by
    by_cases hp : p = []
    · exact Or.inl (by simp [ normalize_prefix, hp])
    · refine Or.inr ?_
      by_cases hl : p.getLast? = some '/'
      · simp [ normalize_prefix, hp, hl]
      · simp [ normalize_prefix, hp, hl, List.getLast?_concat]
  refine ⟨base, ?_, by decide, by decide, by decide⟩
  rcases base with h | h
  · rw [h]
    simp [ normalize_prefix]
  · generalize hq : normalize_prefix p = q at h ⊢
    have hne : q ≠ [] := by
      intro hcon
      rw [hcon] at h
      simp at h
    simp [ normalize_prefix, hne, h]

/-! Claim C8: derived object keys. -/

/-- C8 counterexample: for the pair ("", "/a") the derived key is "/a",
which has a leading separator.  This refutes the claim that for every
(directory, filename) pair the key never has a leading separator. -/
theorem c8_key_counterexample :
    build_object_name [] ['/', 'a'] = ['/', 'a']
    ∧ ( build_object_name [] ['/', 'a']).head? = some '/' := by
  decide

/-- C8 (amended): the derived key equals join(normalize(directory),
filename) by definition of the (deterministic, pure) key function; it
never has a leading separator provided the filename itself does not start
with the separator; and the two specified examples hold:
the key for ("", "a.txt") is "a.txt" and the key for ("/dir/", "a.txt")
is "dir/a.txt". -/
theorem c8_key_amended (d f : Str) (hf : f.head? ≠ some '/') :
    ( build_object_name d f).head? ≠ some '/'
    ∧ build_object_name [] ['a', '.', 't', 'x', 't'] = ['a', '.', 't', 'x', 't']
    ∧ build_object_name ['/', 'd', 'i', 'r', '/'] ['a', '.', 't', 'x', 't']
        = ['d', 'i', 'r', '/', 'a', '.', 't', 'x', 't'] := by
  refine ⟨?_, by decide, by decide⟩
  by_cases hd : stripChar '/' d = []
  · simpa [ build_object_name, hd] using hf
  · obtain ⟨x, xs, hxs⟩ := List.exists_cons_of_ne_nil hd
    have hx : ¬ x = '/' := by
      rcases stripChar_head '/' d with h | h
      · exact absurd h hd
      · rw [hxs] at h
        simpa using h
    simp [ build_object_name, hd, hxs, hx]

/-- C8 witness: the amended statement at the concrete pair ("/x/", "a"). -/
theorem c8_key_witness :
    ( build_object_name ['/', 'x', '/'] ['a']).head? ≠ some '/'
    ∧ build_object_name [] ['a', '.', 't', 'x', 't'] = ['a', '.', 't', 'x', 't']
    ∧ build_object_name ['/', 'd', 'i', 'r', '/'] ['a', '.', 't', 'x', 't']
        = ['d', 'i', 'r', '/', 'a', '.', 't', 'x', 't'] :=
  c8_key_amended ['/', 'x', '/'] ['a'] (by decide)

/-! Claim C4: upload validation. -/

/-- C4: for every call to upload_stream with an empty filename, the call
fails before any backing-store network call: no put_object call is issued,
no destination key is created, and a failure (here the exception escaping
the broken except handler) is reported to the caller; the only local
effect is the guaranteed close of the input stream in the finally block. -/
theorem c4_upload_empty_filename (bucket : Str) (put : PutOutcome) (directory : Str) :
    upload_stream bucket put directory [] = (.exnRaised .unboundLocal, ⟨[], 1⟩) := rfl

/-! Claim C5: stream_file on a missing key. -/

/-- C5 divergence witnessed on the code: when the backend reports the key
absent, the code computes Err(NOT_FOUND, ...) but discards it — the outer
finally block reads the never-bound local response, so the consumer's
first next() raises an UnboundLocalError and no NOT_FOUND failure reaches
the caller on any channel (even without that, the Err would only be the
generator's invisible return value).  The equation evaluates the model at
the failing input stream_file("d", "a") with a NoSuchKey backend. -/
theorem c5_missing_key_eval :
    stream_file ['b'] .noSuchKey .readAll ['d'] ['a'] =
      ([], .raised .unboundLocal
            (some (Err .NOT_FOUND (notFoundText ++ ['d', '/', 'a']))), ⟨0, 0⟩) := rfl

/-! Claim C6: release of the network response. -/

/-- C6 divergence witnessed on the code: on every path where the response
was opened, the connection is released twice, not once — the inner finally
runs close() and release_conn(), and the outer finally, finding response
truthy, runs both again.  The three conjuncts evaluate the model on a
consumer reading to completion, a consumer abandoning early, and a backend
failing mid-stream: each produces two close calls and two release_conn
calls. -/
theorem c6_release_eval :
    ( stream_file ['b'] (.opened [['x']] none) .readAll ['d'] ['a']).2.2
        = ⟨2, 2⟩
    ∧ ( stream_file ['b'] (.opened [['x'], ['y']] none) (.readAtMost 1) ['d'] ['a']).2.2
        = ⟨2, 2⟩
    ∧ ( stream_file ['b'] (.opened [['x']] (some ['e'])) .readAll ['d'] ['a']).2.2
        = ⟨2, 2⟩ :=
  ⟨rfl, rfl, rfl⟩

/-! Claim C7: delete_file outcome shape. -/

/-- C7 counterexample: deleting an absent key returns the raw boolean
False, not a value of the Result envelope, so the tri-state outcome is not
exposed uniformly through the Result type. -/
theorem c7_delete_counterexample :
    delete_file .noSuchKey ['d'] ['a'] = .boolRet false
    ∧ ( delete_file .noSuchKey ['d'] ['a']).viaResult = false := by
  decide

/-- C7 (amended): delete_file exposes a tri-state outcome, but not
uniformly through the Result type: success is the raw boolean True,
not-found is the raw boolean False, and only other failures are a Result
carrying Err(UNKNOWN).  Idempotence holds as claimed: deleting an
already-absent object yields the NotFound outcome (the boolean False), not
an error. -/
theorem c7_delete_amended (d f m : Str) :
    delete_file .ok d f = .boolRet true
    ∧ delete_file .noSuchKey d f = .boolRet false
    ∧ delete_file (.s3Error m) d f = .res (Err .UNKNOWN m)
    ∧ delete_file (.otherError m) d f = .res (Err .UNKNOWN m) :=
  ⟨rfl, rfl, rfl, rfl⟩

/-! Claim C10: the DELETE_FAILED code is never produced. -/

/-- Upload errors never carry DELETE_FAILED. -/
lemma upload_no_delete_failed (bucket : Str) (put : PutOutcome) (d f : Str) (e : Error)
    (h : e ∈ ( upload_stream bucket put d f).1.errorsOf) : e.code ≠ .DELETE_FAILED := by
  by_cases hf : f = [] <;> cases put <;>
    simp [ upload_stream, hf, UploadReturn.errorsOf, Err] at h <;>
    simp [h]

/-- Stream errors never carry DELETE_FAILED. -/
lemma stream_no_delete_failed (bucket : Str) (get : GetOutcome) (plan : ConsumerPlan)
    (d f : Str) (e : Error)
    (h : e ∈ ( stream_file bucket get plan d f).2.1.errorsOf) : e.code ≠ .DELETE_FAILED := by
  by_cases hp : plan = .readAtMost 0
  · simp [ stream_file, hp, StreamTerm.errorsOf] at h
  · cases get with
    | opened chunks midFail =>
      have hend : ∀ e2 : Error, e2 ∈ ( streamEnd chunks midFail).2.1.errorsOf →
          e2.code ≠ .DELETE_FAILED := by
        intro e2 h2
        cases midFail <;> simp [streamEnd, StreamTerm.errorsOf, Err] at h2 <;> simp [h2]
      cases plan with
      | readAll =>
        simp only [ stream_file, hp, if_false] at h
        exact hend e h
      | readAtMost n =>
        by_cases hn : n ≤ chunks.length
        · simp [ stream_file, hp, hn, StreamTerm.errorsOf] at h
        · have h2 : e ∈ ( streamEnd chunks midFail).2.1.errorsOf := by
            simpa [ stream_file, hp, hn] using h
          exact hend e h2
    | noSuchKey =>
      simp [ stream_file, hp, StreamTerm.errorsOf, Err] at h
      simp [h]
    | s3Error m =>
      simp [ stream_file, hp, StreamTerm.errorsOf, Err] at h
      simp [h]
    | otherError m =>
      simp [ stream_file, hp, StreamTerm.errorsOf, Err] at h
      simp [h]

/-- Delete errors never carry DELETE_FAILED: the not-found case is the raw
boolean False and every other failure is Err(UNKNOWN). -/
lemma delete_no_delete_failed (rem : RemoveOutcome) (d f : Str) (e : Error)
    (h : e ∈ ( delete_file rem d f).errorsOf) : e.code ≠ .DELETE_FAILED := by
  cases rem <;> simp [ delete_file, DeleteReturn.errorsOf, Err] at h <;> simp [h]

/-- Presign errors never carry DELETE_FAILED. -/
lemma presign_no_delete_failed (pres : PresignOutcome) (d f : Str) (e : Error)
    (h : e ∈ ( generate_presigned_url pres d f).errorsOf) : e.code ≠ .DELETE_FAILED := by
  cases pres <;> simp [ generate_presigned_url, PresignReturn.errorsOf, Err] at h <;> simp [h]

/-- Bucket-ensure errors never carry DELETE_FAILED. -/
lemma bucket_no_delete_failed (probe : BucketProbe) (e : Error)
    (h : e ∈ bucketErrorsOf ( ensure_bucket_exists probe)) : e.code ≠ .DELETE_FAILED := by
  cases probe <;> simp [ ensure_bucket_exists, bucketErrorsOf, Err] at h <;> simp [h]

/-- C10: although DELETE_FAILED is declared in the ErrorCode taxonomy, no
operation of the codebase ever produces an Error carrying it: every Error
reachable from upload_stream, stream_file (delivered or discarded),
delete_file, generate_presigned_url or _ensure_bucket_exists has a
different code, for every input and every backend response (and
the migration module constructs no Error value at all). -/
theorem c10_no_delete_failed (bucket d f : Str) (put : PutOutcome) (get : GetOutcome)
    (plan : ConsumerPlan) (rem : RemoveOutcome) (pres : PresignOutcome)
    (probe : BucketProbe) (e : Error)
    (h : e ∈ ( upload_stream bucket put d f).1.errorsOf
      ∨ e ∈ ( stream_file bucket get plan d f).2.1.errorsOf
      ∨ e ∈ ( delete_file rem d f).errorsOf
      ∨ e ∈ ( generate_presigned_url pres d f).errorsOf
      ∨ e ∈ bucketErrorsOf ( ensure_bucket_exists probe)) :
    e.code ≠ .DELETE_FAILED := by
  rcases h with h | h | h | h | h
  · exact upload_no_delete_failed bucket put d f e h
  · exact stream_no_delete_failed bucket get plan d f e h
  · exact delete_no_delete_failed rem d f e h
  · exact presign_no_delete_failed pres d f e h
  · exact bucket_no_delete_failed probe e h

/-- C10 witness: the theorem applied at a concrete delete failure, whose
error is Err(UNKNOWN, "m"). -/
theorem c10_witness :
    ({ code := .UNKNOWN, message := ['m'] } : Error).code ≠ .DELETE_FAILED :=
  c10_no_delete_failed ['b'] ['d'] ['a'] .ok .noSuchKey .readAll (.s3Error ['m'])
    (.ok ['u']) .okExists { code := .UNKNOWN, message := ['m'] }
    (Or.inr (Or.inr (Or.inl (by decide))))

/-! Helper lemmas for the migration loop. -/

/-- The classification component of the copy phase. -/
lemma copyDelete_snd (sb db destKey : Str) (o : ObjEnv) :
    ( copyDelete sb db destKey o).2 = copyClass o := by
  obtain ⟨k, st, cp, dl⟩ := o
  cases cp <;> cases dl <;> rfl

/-- The classification component of one loop iteration. -/
lemma processObject_snd (ow : Bool) (sb sp db dp : Str) (o : ObjEnv) :
    ( processObject ow sb sp db dp o).2 = classify ow o := by
  obtain ⟨k, st, cp, dl⟩ := o
  cases ow <;> cases st <;> cases cp <;> cases dl <;> rfl

/-- The empty trace is remove-safe. -/
lemma removeSafe_nil : RemoveSafe [] := by
  intro i b k okd h
  simp at h

/-- Prepending a non-remove event preserves remove-safety. -/
lemma removeSafe_cons_nonremove (ev : Event) (hne : ∀ b k okd, ev ≠ .removeCall b k okd)
    (l : List Event) (hl : RemoveSafe l) : RemoveSafe (ev :: l) := by
  intro i b k okd h
  cases i with
  | zero =>
    simp at h
    exact absurd h (hne b k okd)
  | succ n =>
    obtain ⟨j, hj, db2, dk, hc⟩ := hl n b k okd (by simpa using h)
    exact ⟨j + 1, by omega, db2, dk, by simpa using hc⟩

/-- The copy phase trace is remove-safe: its only possible remove call sits
right after its successful copy call for the same source key. -/
lemma removeSafe_copyDelete (sb db destKey : Str) (o : ObjEnv) :
    RemoveSafe ( copyDelete sb db destKey o).1 := by
  obtain ⟨key, st, cp, dl⟩ := o
  cases cp with
  | failed =>
    intro i b k okd h
    match i with
    | 0 => simp [copyDelete] at h
    | n + 1 => simp [copyDelete] at h
  | ok =>
    cases dl with
    | ok =>
      intro i b k okd h
      match i with
      | 0 => simp [copyDelete] at h
      | 1 =>
        simp [copyDelete] at h
        obtain ⟨hb, hk, hko⟩ := h
        subst hb
        subst hk
        exact ⟨0, by omega, db, destKey, by simp [copyDelete]⟩
      | n + 2 => simp [copyDelete] at h
    | failed =>
      intro i b k okd h
      match i with
      | 0 => simp [copyDelete] at h
      | 1 =>
        simp [copyDelete] at h
        obtain ⟨hb, hk, hko⟩ := h
        subst hb
        subst hk
        exact ⟨0, by omega, db, destKey, by simp [copyDelete]⟩
      | n + 2 => simp [copyDelete] at h

/-- A single stat event is remove-safe. -/
lemma removeSafe_single_stat (db dk : Str) (s : StatOutcome) :
    RemoveSafe [Event.statCall db dk s] :=
  removeSafe_cons_nonremove _ (by intro b k okd; simp) _ removeSafe_nil

/-- Every per-object trace is remove-safe. -/
lemma removeSafe_processObject (ow : Bool) (sb sp db dp : Str) (o : ObjEnv) :
    RemoveSafe ( processObject ow sb sp db dp o).1 := by
  cases ow with
  | true =>
    have h2 := removeSafe_copyDelete sb db (dp ++ tailOf sp o.key) o
    simpa [processObject] using h2
  | false =>
    cases hst : o.stat with
    | found =>
      have h2 := removeSafe_single_stat db (dp ++ tailOf sp o.key) StatOutcome.found
      simpa [processObject, hst] using h2
    | statFatal =>
      have h2 := removeSafe_single_stat db (dp ++ tailOf sp o.key) StatOutcome.statFatal
      simpa [processObject, hst] using h2
    | notFound =>
      have h2 := removeSafe_copyDelete sb db (dp ++ tailOf sp o.key) o
      have h3 := removeSafe_cons_nonremove
        (Event.statCall db (dp ++ tailOf sp o.key) .notFound)
        (by intro b k okd; simp) _ h2
      simpa [processObject, hst] using h3

/-- Concatenation preserves remove-safety. -/
lemma removeSafe_append (l1 l2 : List Event) (h1 : RemoveSafe l1) (h2 : RemoveSafe l2) :
    RemoveSafe (l1 ++ l2) := by
  intro i b k okd h
  by_cases hi : i < l1.length
  · rw [List.get?_append hi] at h
    obtain ⟨j, hj, db2, dk, hc⟩ := h1 i b k okd h
    exact ⟨j, hj, db2, dk, by rw [List.get?_append (by omega)]; exact hc⟩
  · push_neg at hi
    rw [List.get?_append_right hi] at h
    obtain ⟨j, hj, db2, dk, hc⟩ := h2 (i - l1.length) b k okd h
    refine ⟨j + l1.length, by omega, db2, dk, ?_⟩
    rw [List.get?_append_right (by omega)]
    simpa using hc

/-- The whole loop trace is remove-safe. -/
lemma removeSafe_runLoop (ow : Bool) (sb sp db dp : Str) :
    ∀ (objs : List ObjEnv) (acc : Counters),
      RemoveSafe ( runLoop ow sb sp db dp acc objs).1 := by
  intro objs
  induction objs with
  | nil => intro acc; exact removeSafe_nil
  | cons o rest ih =>
    intro acc
    have hpo := removeSafe_processObject ow sb sp db dp o
    simp only [runLoop]
    split
    · next ev heq =>
        rw [heq] at hpo
        exact hpo
    · next ev cl heq =>
        rw [heq] at hpo
        exact removeSafe_append _ _ hpo (ih (bump acc cl))

/-! Claim C1: copy strictly precedes delete. -/

/-- C1: in every migration run, a remove call on (bucket, key) occurs in
the backend-call trace only after a copy call whose source is the same
(bucket, key) returned without error: an object is never removed from the
source before its server-side copy completed successfully. -/
theorem c1_copy_precedes_delete (srcOk ow : Bool) (sb spRaw db dpRaw : Str)
    (objs : List ObjEnv) (i : Nat) (b k : Str) (okd : Bool)
    (h : ( move_minio_prefix srcOk ow sb spRaw db dpRaw objs).1.get? i
          = some (.removeCall b k okd)) :
    ∃ j, j < i ∧ ∃ db2 dk,
      ( move_minio_prefix srcOk ow sb spRaw db dpRaw objs).1.get? j
        = some (.copyCall db2 dk b k true) := by
  have hs : RemoveSafe ( move_minio_prefix srcOk ow sb spRaw db dpRaw objs).1 := by
    cases srcOk with
    | false =>
      intro i2 b2 k2 okd2 h2
      simp [ move_minio_prefix] at h2
    | true =>
      have h2 := removeSafe_runLoop ow sb ( normalize_prefix spRaw) db
        ( normalize_prefix dpRaw) objs ⟨0, 0, 0, 0⟩
      simpa [ move_minio_prefix] using h2
  exact hs i b k okd h

/-- C1 witness: a one-object run whose trace has its remove call at index
one, preceded by the successful copy call. -/
theorem c1_witness :
    ∃ j, j < 1 ∧ ∃ db2 dk,
      ( move_minio_prefix true true ['s'] [] ['d'] []
          [⟨['k'], .notFound, .ok, .ok⟩]).1.get? j
        = some (.copyCall db2 dk ['s'] ['k'] true) :=
  c1_copy_precedes_delete true true ['s'] [] ['d'] [] [⟨['k'], .notFound, .ok, .ok⟩]
    1 ['s'] ['k'] true (by decide)

/-! Claim C2: counters of a completed run. -/

/-- Accumulated counter equations of the loop. -/
lemma runLoop_counts (ow : Bool) (sb sp db dp : Str) :
    ∀ (objs : List ObjEnv) (acc c : Counters),
      ( runLoop ow sb sp db dp acc objs).2 = some c →
      c.moved = acc.moved + countCl ow .Moved objs
      ∧ c.copied = acc.copied + countCl ow .Moved objs + countCl ow .DeleteFailed objs
      ∧ c.skipped = acc.skipped + countCl ow .Skipped objs
      ∧ c.errors = acc.errors + countCl ow .CopyFailed objs + countCl ow .DeleteFailed objs
      ∧ countCl ow .Skipped objs + countCl ow .Moved objs + countCl ow .CopyFailed objs
          + countCl ow .DeleteFailed objs = objs.length := by
  intro objs
  induction objs with
  | nil =>
    intro acc c h
    simp [runLoop] at h
    subst h
    simp [countCl]
  | cons o rest ih =>
    intro acc c h
    simp only [runLoop] at h
    rcases hpr : processObject ow sb sp db dp o with ⟨ev, cls⟩
    rw [hpr] at h
    have hcls : classify ow o = cls := by
      rw [← processObject_snd ow sb sp db dp o, hpr]
    cases cls with
    | none => simp at h
    | some cl =>
      simp only at h
      obtain ⟨h1, h2, h3, h4, h5⟩ := ih (bump acc cl) c h
      have hcount : ∀ cl2 : ObjClass, countCl ow cl2 (o :: rest)
          = countCl ow cl2 rest + (if cl = cl2 then 1 else 0) := by
        intro cl2
        simp [countCl, List.countP_cons, hcls]
      refine ⟨?_, ?_, ?_, ?_, ?_⟩ <;>
        cases cl <;>
          simp [hcount, bump] at h1 h2 h3 h4 h5 ⊢ <;>
            omega

/-- C2: for every run that completes (its counters are emitted), the final
counters satisfy: moved counts the objects classified Moved, copied counts
Moved or DeleteFailed, skipped counts Skipped, errors counts CopyFailed or
DeleteFailed, and skipped + moved + copyFailed + deleteFailed equals the
number of listed objects, so every listed object reaches exactly one
terminal classification. -/
theorem c2_counter_invariant (srcOk ow : Bool) (sb spRaw db dpRaw : Str)
    (objs : List ObjEnv) (c : Counters)
    (h : ( move_minio_prefix srcOk ow sb spRaw db dpRaw objs).2 = some c) :
    c.moved = countCl ow .Moved objs
    ∧ c.copied = countCl ow .Moved objs + countCl ow .DeleteFailed objs
    ∧ c.skipped = countCl ow .Skipped objs
    ∧ c.errors = countCl ow .CopyFailed objs + countCl ow .DeleteFailed objs
    ∧ countCl ow .Skipped objs + countCl ow .Moved objs + countCl ow .CopyFailed objs
        + countCl ow .DeleteFailed objs = objs.length := by
  cases srcOk with
  | false => simp [ move_minio_prefix] at h
  | true =>
    obtain ⟨h1, h2, h3, h4, h5⟩ := runLoop_counts ow sb ( normalize_prefix spRaw) db
      ( normalize_prefix dpRaw) objs ⟨0, 0, 0, 0⟩ c
      (by simpa [ move_minio_prefix] using h)
    exact ⟨by simpa using h1, by simpa using h2, by simpa using h3, by simpa using h4, h5⟩

/-- Concrete four-object listing exercising all four terminal
classifications, used by the C2 witness. -/
def c2objs : List ObjEnv :=
  [⟨['k'], .notFound, .ok, .ok⟩, ⟨['l'], .found, .ok, .ok⟩,
   ⟨['m'], .notFound, .failed, .ok⟩, ⟨['n'], .notFound, .ok, .failed⟩]

/-- C2 witness: a completed concrete run with one object per terminal
classification ends with counters moved=1, copied=2, skipped=1, errors=2. -/
theorem c2_witness :
    (⟨1, 2, 1, 2⟩ : Counters).moved = countCl false .Moved c2objs
    ∧ (⟨1, 2, 1, 2⟩ : Counters).copied
        = countCl false .Moved c2objs + countCl false .DeleteFailed c2objs
    ∧ (⟨1, 2, 1, 2⟩ : Counters).skipped = countCl false .Skipped c2objs
    ∧ (⟨1, 2, 1, 2⟩ : Counters).errors
        = countCl false .CopyFailed c2objs + countCl false .DeleteFailed c2objs
    ∧ countCl false .Skipped c2objs + countCl false .Moved c2objs
        + countCl false .CopyFailed c2objs + countCl false .DeleteFailed c2objs
        = c2objs.length :=
  c2_counter_invariant true false ['s'] [] ['d'] [] c2objs ⟨1, 2, 1, 2⟩ (by decide)

/-! Claim C3: fatal preconditions versus isolated per-object failures. -/

/-- An object whose stat probe is not fatal (or that is never probed,
because overwrite is set) always gets a terminal classification. -/
lemma classify_some_of_stat (ow : Bool) (o : ObjEnv)
    (hs : ow = false → o.stat ≠ .statFatal) : classify ow o ≠ none := by
  cases ow with
  | true => simp [classify]
  | false =>
    cases hst : o.stat with
    | found => simp [classify, hst]
    | notFound => simp [classify, hst]
    | statFatal => exact absurd hst (hs rfl)

/-- When every listed object classifies, the loop completes with
counters. -/
lemma runLoop_completes (ow : Bool) (sb sp db dp : Str) :
    ∀ (objs : List ObjEnv) (acc : Counters),
      (∀ o ∈ objs, classify ow o ≠ none) →
      ∃ c, ( runLoop ow sb sp db dp acc objs).2 = some c := by
  intro objs
  induction objs with
  | nil =>
    intro acc _
    exact ⟨acc, rfl⟩
  | cons o rest ih =>
    intro acc hall
    rcases hpr : processObject ow sb sp db dp o with ⟨ev, cls⟩
    have hcls : classify ow o = cls := by
      rw [← processObject_snd ow sb sp db dp o, hpr]
    cases cls with
    | none => exact absurd hcls (hall o (List.mem_cons_self o rest))
    | some cl =>
      obtain ⟨c, hc⟩ := ih (bump acc cl) (fun o2 h2 => hall o2 (List.mem_cons_of_mem _ h2))
      refine ⟨c, ?_⟩
      simp only [runLoop]
      rw [hpr]
      simpa using hc

/-- A fatal stat probe aborts the loop: with the preceding objects all
non-fatal, the loop result carries no counters. -/
lemma runLoop_aborts (sb sp db dp : Str) :
    ∀ (pre : List ObjEnv) (o : ObjEnv) (post : List ObjEnv) (acc : Counters),
      o.stat = .statFatal → (∀ p ∈ pre, p.stat ≠ .statFatal) →
      ( runLoop false sb sp db dp acc (pre ++ o :: post)).2 = none := by
  intro pre
  induction pre with
  | nil =>
    intro o post acc ho _
    rcases hpr : processObject false sb sp db dp o with ⟨ev, cls⟩
    have hcls : classify false o = cls := by
      rw [← processObject_snd false sb sp db dp o, hpr]
    have hnone : cls = none := by
      rw [← hcls]
      simp [classify, ho]
    subst hnone
    simp only [List.nil_append, runLoop]
    rw [hpr]
  | cons p pre2 ih =>
    intro o post acc ho hpre
    have hp := hpre p (List.mem_cons_self p pre2)
    rcases hpr : processObject false sb sp db dp p with ⟨ev, cls⟩
    have hcls : classify false p = cls := by
      rw [← processObject_snd false sb sp db dp p, hpr]
    cases cls with
    | none =>
      have h2 := classify_some_of_stat false p (fun _ => hp)
      exact absurd hcls h2
    | some cl =>
      simp only [List.cons_append, runLoop]
      rw [hpr]
      simpa using ih o post (bump acc cl) ho (fun q hq => hpre q (List.mem_cons_of_mem _ hq))

/-- C3: migration failures split into exactly the two observed classes.
First conjunct: a missing source bucket aborts the whole run — no counters
are emitted.  Second conjunct: a destination-existence probe failing with
any code other than not-found aborts the entire run, again with no
counters.  Third conjunct: when neither fatal condition occurs, the run
always completes — per-object copy and delete failures never abort it, and
they are exactly what the errors counter counts. -/
theorem c3_failure_classes :
    (∀ (ow : Bool) (sb spRaw db dpRaw : Str) (objs : List ObjEnv),
        ( move_minio_prefix false ow sb spRaw db dpRaw objs).2 = none)
    ∧ (∀ (sb spRaw db dpRaw : Str) (pre : List ObjEnv) (o : ObjEnv) (post : List ObjEnv),
        o.stat = .statFatal → (∀ p ∈ pre, p.stat ≠ .statFatal) →
        ( move_minio_prefix true false sb spRaw db dpRaw (pre ++ o :: post)).2 = none)
    ∧ (∀ (ow : Bool) (sb spRaw db dpRaw : Str) (objs : List ObjEnv),
        (∀ o ∈ objs, ow = false → o.stat ≠ .statFatal) →
        ∃ c, ( move_minio_prefix true ow sb spRaw db dpRaw objs).2 = some c
          ∧ c.errors = countCl ow .CopyFailed objs + countCl ow .DeleteFailed objs) := by
  refine ⟨?_, ?_, ?_⟩
  · intro ow sb spRaw db dpRaw objs
    simp [ move_minio_prefix]
  · intro sb spRaw db dpRaw pre o post ho hpre
    have h2 := runLoop_aborts sb ( normalize_prefix spRaw) db ( normalize_prefix dpRaw)
      pre o post ⟨0, 0, 0, 0⟩ ho hpre
    simpa [ move_minio_prefix] using h2
  · intro ow sb spRaw db dpRaw objs hall
    obtain ⟨c, hc⟩ := runLoop_completes ow sb ( normalize_prefix spRaw) db
      ( normalize_prefix dpRaw) objs ⟨0, 0, 0, 0⟩
      (fun o ho => classify_some_of_stat ow o (hall o ho))
    obtain ⟨h1, h2, h3, h4, h5⟩ := runLoop_counts ow sb ( normalize_prefix spRaw) db
      ( normalize_prefix dpRaw) objs ⟨0, 0, 0, 0⟩ c hc
    exact ⟨c, by simpa [ move_minio_prefix] using hc, by simpa using h4⟩

/-- C3 witness: a concrete run whose single object has a fatal probe
failure carries no counters. -/
theorem c3_witness :
    ( move_minio_prefix true false ['s'] [] ['d'] []
        ([] ++ ⟨['k'], .statFatal, .ok, .ok⟩ :: [])).2 = none :=
  c3_failure_classes.2.1 ['s'] [] ['d'] [] [] ⟨['k'], .statFatal, .ok, .ok⟩ [] rfl
    (by intro p hp; simp at hp)

end TempUtils
